import Mathlib

/-!
Verification of the Monkshu backend API gateway core: the API registry
(`backend/server/lib/apiregistry.js`) and the JWT token manager
(`backend/server/lib/apiregistry_extensions/jwttokenmanager.js`).

The JavaScript source is shallowly embedded: JS objects used as string-keyed
maps become association lists, the shared cluster store (`CLUSTER_MEMORY`, an
external collaborator providing atomic get/set) becomes explicit state
threading, `Date.now()` becomes an explicit `now : Int` parameter (epoch
milliseconds; the reads of the clock inside one call are modelled as a single
instant), and Node standard-library facilities (base64, JSON, crypto HMAC,
WHATWG URL parsing) become function parameters or pre-parsed structures, since
the spec treats them as out-of-scope external collaborators.
-/

set_option autoImplicit false

universe u

/-! ## JS object / value helpers -/

/-- Lookup in a string-keyed JS object, modelled as an association list:
`obj[k]` is `undefined` (here `none`) when the key is absent. -/
def jsLookup {α : Type u} : List (String × α) → String → Option α
  | [], _ => none
  | (k', v) :: rest, k => if k' = k then some v else jsLookup rest k

/-- `obj[k] = v` on a JS object: an existing key keeps its position in the
key order, a new key is appended at the end. -/
def jsSet {α : Type u} : List (String × α) → String → α → List (String × α)
  | [], k, v => [(k, v)]
  | (k', v') :: rest, k, v =>
    if k' = k then (k, v) :: rest else (k', v') :: jsSet rest k v

/-- `delete obj[k]` on a JS object: removes the entry for `k` (JS object keys
are unique, so removing the first occurrence is exact on reachable states). -/
def jsDelete {α : Type u} : List (String × α) → String → List (String × α)
  | [], _ => []
  | (k', v') :: rest, k => if k' = k then rest else (k', v') :: jsDelete rest k

/-- JS string coercion of a possibly-`undefined` string value, as performed by
template-literal interpolation (`undefined` renders as the text `undefined`). -/
def jsStr : Option String → String
  | none => "undefined"
  | some s => s

/-- Keys of a JS object are unique; association lists satisfying this predicate
are exactly the reachable object states. -/
def keysNodup {α : Type u} (l : List (String × α)) : Prop :=
  (l.map Prod.fst).Nodup

instance {α : Type u} (l : List (String × α)) : Decidable (keysNodup l) := by
  unfold keysNodup; infer_instance

/-- JS `str.split(sep)` for a one-character separator, on character lists. -/
def splitCharAux (sep : Char) : List Char → List Char → List (List Char)
  | [], cur => [cur.reverse]
  | c :: cs, cur =>
    if c = sep then cur.reverse :: splitCharAux sep cs []
    else splitCharAux sep cs (c :: cur)

/-- JS `str.split(sep)` for a one-character separator: `"a..b"` gives
`["a", "", "b"]` and `""` gives `[""]`. -/
def jsSplitChar (sep : Char) (s : String) : List String :=
  (splitCharAux sep s.toList []).map List.asString

/-- Modelled from the spec: `utils.escapedSplit` from `lib/utils.js`, which is
not under `src/`; every use in the specified code splits a comma-separated
directive list, so it is modelled as splitting on `","`. -/
def escapedSplit (s : String) : List String := jsSplitChar ',' s

/-- JS `str.toLowerCase()` (ASCII case mapping suffices for the directive and
scheme strings compared in this code). -/
def jsToLower (s : String) : String := (s.toList.map Char.toLower).asString

/-- A character removed by JS `String.prototype.trim`. -/
def jsTrimChar (c : Char) : Bool := c = ' ' ∨ c = '\t' ∨ c = '\n' ∨ c = '\r'

/-- JS `str.trim()`. -/
def jsTrim (s : String) : String :=
  (((s.toList.dropWhile (fun c => jsTrimChar c)).reverse.dropWhile
    (fun c => jsTrimChar c)).reverse).asString

/-- JS `str.split(/[ \t]+/)` on character lists: split on maximal runs of
spaces and tabs (the flag records being inside a run), keeping an empty
segment for a leading or trailing run. -/
def jsSplitWsAux : Bool → List Char → List Char → List (List Char)
  | _, [], cur => [cur.reverse]
  | inRun, c :: cs, cur =>
    if c = ' ' ∨ c = '\t' then
      if inRun then jsSplitWsAux true cs cur
      else cur.reverse :: jsSplitWsAux true cs []
    else jsSplitWsAux false cs (c :: cur)

/-- JS `str.split(/[ \t]+/)` on strings. -/
def jsSplitWs (s : String) : List String :=
  (jsSplitWsAux false s.toList []).map List.asString

/-! ## Token manager data model -/

/-- The caller-visible `reason` out-parameter: a JS object whose `reason` and
`code` properties start out absent and are written by the checkers. -/
structure Reason where
  reason : Option String := none
  code : Option Int := none
deriving DecidableEq, Repr

/-- The live-token table held in the shared cluster store under
`__org_monkshu_jwttokens_key`: token string → `lastAccess` epoch millis. -/
abbrev TokenTable := List (String × Int)

/-- A parsed JWT claim set. The numeric claims are carried as dedicated
fields; string-valued claims (`sub`, `iss`, `jti` and any caller-supplied
custom claims) live in `fields`. Decoding of the base64 JSON segment is
performed by the Node `Buffer`/`JSON` standard library, which the embedding
takes as a parameter. -/
structure TMClaims where
  expiryInterval : Int
  iat : Option Int := none
  iatms : Option Int := none
  nbf : Option Int := none
  exp : Option Int := none
  fields : List (String × String) := []
deriving DecidableEq, Repr

/-- A registry entry after `_getAPIRegEntryAsURL`: the path part of the raw
configured string plus the query directives the pipeline consults. The raw
string is parsed by the WHATWG `URL` and `querystring` Node standard
libraries, so the embedding works on the parsed view. An empty-string
directive is falsy in JS exactly like an absent one; the embeddings below
mirror that. -/
structure ApiRegEntry where
  rawpathname : String := ""
  needsToken : Option String := none
  addsToken : Option String := none
  customSecurity : Option String := none
  checkClaims : Option String := none
deriving DecidableEq, Repr

/-- `claims.sub`. -/
def TMClaims.sub (c : TMClaims) : Option String := jsLookup c.fields "sub"

/-- Node `JSON.stringify` applied to a claims object (external standard
library), used only to build diagnostic reason strings; modelled as a fixed
executable rendering. -/
def jsonStringifyClaims (c : TMClaims) : String :=
  "\x7b\"expiryInterval\":" ++ toString c.expiryInterval ++
    (c.fields.foldl (fun acc kv => acc ++ ",\"" ++ kv.1 ++ "\":\"" ++ kv.2 ++ "\"") "")
    ++ "\x7d"

namespace JWTTokenManager

/-- `getClaims` for a token string: parse the second dot-separated segment as
base64 JSON, with any failure (no second segment, undecodable base64, invalid
JSON) caught and turned into the empty claims object, modelled as `none`.
`parse` is the external base64-of-JSON decoding. -/
def getClaims (parse : String → Option TMClaims) (token : String) : Option TMClaims :=
  ((jsSplitChar '.' token)[1]?).bind parse

/-- `updateLastAccessOrAddToken(token)`: set the `lastAccess` of the token to
the current time and write the table back to the shared store. -/
def updateLastAccessOrAddToken (now : Int) (activeTokens : TokenTable)
    (token : String) : TokenTable :=
  jsSet activeTokens token now

/-- `releaseToken(token)`: remove the token from the live table (and write the
table back) when `token` is truthy and it has a truthy `lastAccess` entry. -/
def releaseToken (activeTokens : TokenTable) (token : String) : TokenTable :=
  if token ≠ "" ∧ (jsLookup activeTokens token).getD 0 ≠ 0 then
    jsDelete activeTokens token
  else activeTokens

/-- The access-level test of `checkToken` (`true` means the check failed):
`accessNeeded && accessNeeded.toLowerCase() != "true" &&
!utils.escapedSplit(accessNeeded, ",").includes(claims.sub)`; a JS `includes`
with an `undefined` argument is `false`. -/
def accessLevelFails (accessNeeded : Option String) (claims : TMClaims) : Bool :=
  match accessNeeded with
  | none => false
  | some an =>
    an ≠ "" && jsToLower an ≠ "true" &&
      !(match claims.sub with
        | none => false
        | some s => (escapedSplit an).contains s)

/-- The `checkClaims` loop of `checkToken`: the first claim name in the
comma-separated list whose value on the token differs (JS `!=`) from the
same-named field of the request object; `none` when every named claim
matches. -/
def checkClaimsFailKey (checkClaims : String) (claims : TMClaims)
    (req : List (String × String)) : Option String :=
  (jsSplitChar ',' checkClaims).find?
    (fun key => !(jsLookup claims.fields key == jsLookup req key))

/-- The `if (checkClaims)` stage of `checkToken` as a whole: the first
failing claim name, where an absent or empty (falsy) directive checks
nothing. -/
def ccStageFailKey (checkClaims : Option String) (claims : TMClaims)
    (req : List (String × String)) : Option String :=
  match checkClaims with
  | some cc => if cc = "" then none else checkClaimsFailKey cc claims req
  | none => none

/-- The failure exit used by the token checks: `reason.reason = msg;
reason.code = 403;` on the reason object of the caller. -/
def failReason (r : Reason) (msg : String) : Reason :=
  { r with reason := some msg, code := some 403 }

/-- `checkToken(token, reason, accessNeeded, checkClaims, req)`. Returns the
boolean result, the `reason` object of the caller after the call (its
properties are mutated on failure), and the live-token table after the call.
JS `!lastAccess` treats a `0` timestamp like a missing entry, which the
embedding mirrors. -/
def checkToken (parse : String → Option TMClaims) (now : Int)
    (activeTokens : TokenTable) (token : String) (reason : Reason)
    (accessNeeded checkClaims : Option String) (req : List (String × String)) :
    Bool × Reason × TokenTable :=
  match jsLookup activeTokens token with
  | none => (false, failReason reason "JWT Token Error, no last access found", activeTokens)
  | some lastAccess =>
    if lastAccess = 0 then
      (false, failReason reason "JWT Token Error, no last access found", activeTokens)
    else match getClaims parse token with
    | none => (false, failReason reason "JWT Token Error, claims are not parseable", activeTokens)
    | some claims =>
      if now - lastAccess > claims.expiryInterval then
        (false, failReason reason "JWT Token Error, expired", activeTokens)
      else if accessLevelFails accessNeeded claims then
        (false, failReason reason
          ("JWT Token Error, sub:claims doesn\x27t match needed access level. Claims are "
            ++ jsonStringifyClaims claims ++ " and needed access is "
            ++ jsStr accessNeeded ++ "."), activeTokens)
      else
        match ccStageFailKey checkClaims claims req with
        | some key =>
          (false, failReason reason
            ("JWT Token Error, claims check failed. Claims keys is " ++ key
              ++ ", found JWT claim " ++ jsStr (jsLookup claims.fields key)
              ++ ", request claims " ++ jsStr (jsLookup req key) ++ "."), activeTokens)
        | none => (true, reason, updateLastAccessOrAddToken now activeTokens token)

/-- `checkSecurity(apiregentry, _url, req, headers, _servObject, reason)` of
the token manager: pass when no token is needed (absent, empty or literal
`"false"` directive, case-insensitively); otherwise require an
`authorization` header splitting on spaces/tabs into exactly two parts whose
first part is `bearer` case-insensitively after trimming, and delegate to
`checkToken` on the second part. -/
def checkSecurity (parse : String → Option TMClaims) (now : Int)
    (activeTokens : TokenTable) (apiregentry : ApiRegEntry)
    (headers : List (String × String)) (req : List (String × String))
    (reason : Reason) : Bool × Reason × TokenTable :=
  match apiregentry.needsToken with
  | none => (true, reason, activeTokens)
  | some nt =>
    if nt = "" ∨ jsToLower nt = "false" then (true, reason, activeTokens)
    else
      let incomingToken := jsLookup headers "authorization"
      let token_splits := match incomingToken with
        | none => []
        | some t => jsSplitWs t
      match token_splits with
      | [s0, s1] =>
        if jsToLower (jsTrim s0) = "bearer" then
          checkToken parse now activeTokens s1 reason (some nt) apiregentry.checkClaims req
        else
          (false, failReason reason ("JWT malformatted. Got token " ++ jsStr incomingToken),
            activeTokens)
      | _ =>
        (false, failReason reason ("JWT malformatted. Got token " ++ jsStr incomingToken),
          activeTokens)

/-- The fixed first token segment: base64 of the JSON text
`\x7b"alg":"HS256","typ":"JWT"\x7d`. -/
def BASE_64_HEADER : String := "eyJhbGciOiJIUzI1NiIsInR5cCI6IkpXVCJ9"

/-- Caller-supplied token properties (`jwtproperties`): an optional
`expiryInterval` override plus string-valued custom claims (notably `sub`). -/
structure JwtProps where
  expiryInterval : Option Int := none
  fields : List (String × String) := []
deriving DecidableEq, Repr

/-- `Math.round(timenow/1000)` on an exact integer input: round half towards
positive infinity. -/
def epochSecondsOf (timenowMs : Int) : Int := (2 * timenowMs + 1000).fdiv 2000

/-- The claim-set construction inside `createSignedJWTToken`: generated
defaults (`iss` is always `"Monkshu"`, because `TOKENMANCONF` is a path
string so `TOKENMANCONF.iss` is `undefined`; `iat`/`nbf` in epoch seconds;
`iatms` in millis; `exp` adds the millisecond interval to epoch seconds,
faithfully to the source; a random `jti`), then the caller-supplied
properties spread over them: caller string claims land in `fields`, and a
caller `expiryInterval` overrides the configured one (it is the same value
that `parseInt` produced, so the override is numerically transparent). -/
def buildClaims (timenow : Int) (jtiHex : String) (confExpiry : Int)
    (props : JwtProps) : TMClaims :=
  let expiryInterval := props.expiryInterval.getD confExpiry
  let timenowEPOCH := epochSecondsOf timenow
  { expiryInterval := expiryInterval
    iat := some timenowEPOCH
    iatms := some timenow
    nbf := some timenowEPOCH
    exp := some (timenowEPOCH + expiryInterval)
    fields := props.fields.foldl (fun acc kv => jsSet acc kv.1 kv.2)
      [("iss", "Monkshu"), ("jti", jtiHex)] }

/-- `createSignedJWTToken(jwtproperties)`. External collaborators become
parameters: `jsonB64` is `Buffer.from(JSON.stringify(claims)).toString
("base64")`, `hmacSHA256 key msg` is `crypto.createHmac("sha256",
key).update(msg).digest("hex")`, `randomKeyHex` is the fresh
`crypto.randomBytes(32).toString("hex")` drawn for this single call, and
`jtiHex` the fresh `crypto.randomBytes(16).toString("hex")`. The HMAC is
computed over `claimB64 + "." + BASE_64_HEADER` — the claims segment followed
by the header segment — exactly as in the source. The new token is registered
as active at the current time. -/
def createSignedJWTToken (jsonB64 : TMClaims → String)
    (hmacSHA256 : String → String → String) (randomKeyHex jtiHex : String)
    (timenow : Int) (confExpiry : Int) (props : JwtProps)
    (activeTokens : TokenTable) : String × TokenTable :=
  let claims := buildClaims timenow jtiHex confExpiry props
  let claimB64 := jsonB64 claims
  let tokenClaimHeader := claimB64 ++ "." ++ BASE_64_HEADER
  let sig64 := hmacSHA256 randomKeyHex tokenClaimHeader
  let token := BASE_64_HEADER ++ "." ++ claimB64 ++ "." ++ sig64
  (token, updateLastAccessOrAddToken timenow activeTokens token)

/-- The token construction as claim C2 words it, for comparison: identical
except that the HMAC is computed over the header segment followed by the
claims segment (`header.claims`). -/
def createSignedJWTTokenHeaderFirst (jsonB64 : TMClaims → String)
    (hmacSHA256 : String → String → String) (randomKeyHex jtiHex : String)
    (timenow : Int) (confExpiry : Int) (props : JwtProps) : String :=
  let claims := buildClaims timenow jtiHex confExpiry props
  let claimB64 := jsonB64 claims
  let sig64 := hmacSHA256 randomKeyHex (BASE_64_HEADER ++ "." ++ claimB64)
  BASE_64_HEADER ++ "." ++ claimB64 ++ "." ++ sig64

/-- `_cleanTokens()`: the periodic GC sweep. Iterates the snapshot of the
live-token keys, skips tokens whose claims fail to parse (their
`expiryInterval` is `undefined`, so the age comparison is false), deletes
every token whose age exceeds its own `expiryInterval`, and calls every
registered listener once per eviction — with the literal event string
`"token_expireed"` of the source. Listeners are identified by index and the
returned list records the callback invocations in call order; the returned
table is the pruned table written back to the shared store. -/
def _cleanTokens (parse : String → Option TMClaims) (now : Int)
    (listeners : List Nat) (activeTokens : TokenTable) :
    TokenTable × List (Nat × String × String) :=
  activeTokens.foldl
    (fun acc kv =>
      match getClaims parse kv.1 with
      | none => acc
      | some claims =>
        if now - kv.2 > claims.expiryInterval then
          (jsDelete acc.1 kv.1, acc.2 ++ listeners.map (fun l => (l, "token_expireed", kv.1)))
        else acc)
    (activeTokens, [])

end JWTTokenManager

namespace ApiRegistry

/-- A loaded security-checker extension module: its diagnostic
`__org_monkshu_apiregistry_conf_modulename` tag and its `checkSecurity`
method. The module is an opaque plugin; the arguments the registry threads
through it are abstracted to the `reason` object it may mutate, and its
boolean verdict. -/
structure SecurityChecker where
  name : String
  check : Reason → Bool × Reason

/-- The registry table, in its parsed view: endpoint path → entry. -/
abbrev Registry := List (String × ApiRegEntry)

/-- The security-checker loop of `checkSecurity`: the chain may contain
`undefined` entries (an unregistered custom checker name); the guard
`securitycheckerThis && ...` skips those without failing. On the first
rejecting checker the loop appends ` ---- Failed on: <module name>` to
`reason.reason` (JS `+=` renders an unset `reason.reason` as `undefined`) and
stops. The returned name list records, in order, exactly the checkers whose
`checkSecurity` method was invoked. -/
def runCheckers : List (Option SecurityChecker) → Reason → List String →
    Bool × Reason × List String
  | [], reason, invoked => (true, reason, invoked.reverse)
  | none :: rest, reason, invoked => runCheckers rest reason invoked
  | some c :: rest, reason, invoked =>
    let r := c.check reason
    if r.1 then runCheckers rest r.2 (c.name :: invoked)
    else
      (false,
        { r.2 with reason := some (jsStr r.2.reason ++ " ---- Failed on: " ++ c.name) },
        (c.name :: invoked).reverse)

/-- The full checker chain assembled by `checkSecurity`: the core
`securitycheckers` followed, when the entry declares `customSecurity`, by the
lookups of each comma-separated name in the custom-security-checker map
(`global.APIREGISTRY.ENV.CUSTOM_SECURITY_CHECKERS`); an unregistered name
contributes an `undefined` entry. -/
def fullChain (securitycheckers : List SecurityChecker)
    (customCheckers : List (String × SecurityChecker)) (entry : ApiRegEntry) :
    List (Option SecurityChecker) :=
  securitycheckers.map some ++
    (match entry.customSecurity with
     | none => []
     | some cs =>
       if cs = "" then []
       else (escapedSplit cs).map (jsLookup customCheckers))

/-- `checkSecurity(url, req, headers, servObject, reason)` of the registry.
`endPoint` is `new URL(url).pathname` (external WHATWG URL parsing). On an
unregistered endpoint the source executes `reason = \x7breason:"API endpoint
missing", code:403\x7d`, which rebinds the local parameter only — the object
of the caller is returned unchanged — and returns `false` without invoking
any checker. Otherwise it runs the assembled chain. -/
def checkSecurity (apireg : Registry) (securitycheckers : List SecurityChecker)
    (customCheckers : List (String × SecurityChecker)) (endPoint : String)
    (reason : Reason) : Bool × Reason × List String :=
  match jsLookup apireg endPoint with
  | none => (false, reason, [])
  | some entry => runCheckers (fullChain securitycheckers customCheckers entry) reason []

/-- `decodeIncomingData(url, data, headers, servObject)`: `false` (modelled
as `none`) on an unregistered endpoint, otherwise the payload threaded
through every decoder in chain order (the decoder modules are opaque plugins,
abstracted to their transformation of the payload). -/
def decodeIncomingData {α : Type u} (apireg : Registry) (decoders : List (α → α))
    (endPoint : String) (data : α) : Option α :=
  match jsLookup apireg endPoint with
  | none => none
  | some _ => some (decoders.foldl (fun d f => f d) data)

/-- `encodeResponse(url, respObj, reqHeaders, respHeaders, servObject)`:
`false` (modelled as `none`) on an unregistered endpoint, otherwise the
response threaded through every encoder in chain order. -/
def encodeResponse {α : Type u} (apireg : Registry) (encoders : List (α → α))
    (endPoint : String) (respObj : α) : Option α :=
  match jsLookup apireg endPoint with
  | none => none
  | some _ => some (encoders.foldl (fun d f => f d) respObj)

/-- `injectResponseHeaders(url, response, requestHeaders, responseHeaders,
servObject, reqObj)`: returns without touching the response headers on an
unregistered endpoint, otherwise runs every header manager (abstracted to its
mutation of the response-header object) unconditionally in chain order. -/
def injectResponseHeaders (apireg : Registry)
    (headermanagers : List (List (String × String) → List (String × String)))
    (endPoint : String) (responseHeaders : List (String × String)) :
    List (String × String) :=
  match jsLookup apireg endPoint with
  | none => responseHeaders
  | some _ => headermanagers.foldl (fun h f => f h) responseHeaders

/-- `getAPI(url)`: the `rawpathname` of the entry of the endpoint, or
`undefined` when unregistered (`path.resolve`, an external path utility, is
elided: the entry targets were already made absolute at load time). -/
def getAPI (apireg : Registry) (endPoint : String) : Option String :=
  (jsLookup apireg endPoint).map ApiRegEntry.rawpathname

/-- `listAPIs()`: the key list of the registry table (a defensive copy). -/
def listAPIs (apireg : Registry) : List String := apireg.map Prod.fst

/-- The JS method call `app.getApps()` inside `addAPI`/`deleteAPI`: the
parameter `app` holds the application NAME (a string) and shadows the
module-level import of `app.js`, so the call looks up `getApps` on a string
value. Strings have no such method, so the call throws a `TypeError` for
every string argument — hence the `Empty` success type. -/
def stringGetApps (_appName : String) : Except String Empty :=
  Except.error "TypeError: app.getApps is not a function"

/-- `addAPI(path, apiregentry, app)` (and its alias `editAPI`). Its first
statement sequence evaluates `app.getApps()` on the application-name string,
which throws before the registry table or the on-disk file is touched, so the
operation fails for every input and the body after the call is unreachable. -/
def addAPI (_apireg : Registry) (_path _apiregentry _appName : String) :
    Except String Registry :=
  (stringGetApps _appName).bind (fun e => e.elim)

/-- `deleteAPI(path, app)`: same parameter shadowing as `addAPI`, so it also
throws a `TypeError` before any mutation. -/
def deleteAPI (_apireg : Registry) (_path _appName : String) :
    Except String Registry :=
  (stringGetApps _appName).bind (fun e => e.elim)

/-- One `\x7bmodule, priority\x7d` record of `_loadSortedConfOjbects`. -/
structure ConfEntry where
  module : String
  priority : Int
deriving DecidableEq, Repr

/-- The records contributed by one configuration source `\x7bpath, root\x7d`:
one entry per key of the loaded mapping, in key (discovery) order. -/
def confEntriesOf (root : String) (rawObject : List (String × Int)) : List ConfEntry :=
  rawObject.map (fun kv =>
    { module := root ++ "/lib/apiregistry_extensions/" ++ jsToLower kv.1 ++ ".js",
      priority := kv.2 })

/-- `_loadSortedConfOjbects(pathAndRoots)` up to module loading: flatten the
records of all sources in source order (the caller passes the core
configuration first, then the applications in catalog order) and sort them
with the comparator `(a.priority < b.priority) ? -1 : (a.priority > b.priority)
? 1 : 0` — ascending by priority; `Array.prototype.sort` is stable, modelled
by a stable merge sort. -/
def _loadSortedConfOjbects (pathAndRoots : List (String × List (String × Int))) :
    List ConfEntry :=
  ((pathAndRoots.map (fun pr => confEntriesOf pr.1 pr.2)).flatten).mergeSort
    (fun a b => decide (a.priority ≤ b.priority))

end ApiRegistry

/-! ## Association-list lemmas -/

theorem jsLookup_eq_none_of_not_mem {α : Type u} {l : List (String × α)} {k : String}
    (h : k ∉ l.map Prod.fst) : jsLookup l k = none := by
  induction l with
  | nil => rfl
  | cons p rest ih =>
    simp only [List.map_cons, List.mem_cons] at h
    push_neg at h
    obtain ⟨k', v'⟩ := p
    simp only [jsLookup]
    rw [if_neg (fun e => h.1 e.symm), ih h.2]

theorem jsLookup_jsSet_self {α : Type u} (l : List (String × α)) (k : String) (v : α) :
    jsLookup (jsSet l k v) k = some v := by
  induction l with
  | nil => simp [jsSet, jsLookup]
  | cons p rest ih =>
    obtain ⟨k', v'⟩ := p
    by_cases h : k' = k
    · simp [jsSet, h, jsLookup]
    · simp [jsSet, h, jsLookup, ih]

theorem jsLookup_jsDelete_self {α : Type u} {l : List (String × α)} (h : keysNodup l)
    (k : String) : jsLookup (jsDelete l k) k = none := by
  induction l with
  | nil => rfl
  | cons p rest ih =>
    obtain ⟨k', v'⟩ := p
    unfold keysNodup at h
    simp only [List.map_cons, List.nodup_cons] at h
    by_cases hk : k' = k
    · subst hk
      simp only [jsDelete, if_pos rfl]
      exact jsLookup_eq_none_of_not_mem h.1
    · simp only [jsDelete, if_neg hk, jsLookup, if_neg hk]
      exact ih h.2

/-! ## Claim theorems -/

open JWTTokenManager in
/-- C1: validation of a token — `checkToken`, and the token-manager
`checkSecurity` on a `needsToken`-bearing entry, which delegates to
`checkToken` for a well-formed bearer header — succeeds only if the token is
in the live-token table with a truthy `lastAccess` such that
`now - lastAccess ≤ claims.expiryInterval`; when the token is absent
(including immediately after `releaseToken` of it) validation returns `false`
with `reasonOut.code` 403; and when the age exceeds `expiryInterval` it
returns `false` with code 403 and a reason containing `expired`. -/
theorem claim_C1_token_validation (parse : String → Option TMClaims) (now : Int)
    (tbl : TokenTable) (token : String) (reason : Reason)
    (accessNeeded checkClaims : Option String) (req : List (String × String)) :
    ((checkToken parse now tbl token reason accessNeeded checkClaims req).1 = true →
      ∃ la claims, jsLookup tbl token = some la ∧ la ≠ 0 ∧
        getClaims parse token = some claims ∧ now - la ≤ claims.expiryInterval)
    ∧ (jsLookup tbl token = none →
        (checkToken parse now tbl token reason accessNeeded checkClaims req).1 = false ∧
        (checkToken parse now tbl token reason accessNeeded checkClaims req).2.1.code = some 403)
    ∧ (∀ la claims, jsLookup tbl token = some la → la ≠ 0 →
        getClaims parse token = some claims → now - la > claims.expiryInterval →
        (checkToken parse now tbl token reason accessNeeded checkClaims req).1 = false ∧
        (checkToken parse now tbl token reason accessNeeded checkClaims req).2.1.code = some 403 ∧
        (checkToken parse now tbl token reason accessNeeded checkClaims req).2.1.reason =
          some "JWT Token Error, expired" ∧
        List.IsInfix "expired".toList
          (jsStr (checkToken parse now tbl token reason accessNeeded checkClaims req).2.1.reason).toList)
    ∧ (keysNodup tbl →
        (checkToken parse now (releaseToken tbl token) token reason accessNeeded checkClaims req).1 = false ∧
        (checkToken parse now (releaseToken tbl token) token reason accessNeeded checkClaims req).2.1.code = some 403)
    ∧ (∀ (entry : ApiRegEntry) (nt : String) (headers : List (String × String))
          (auth s0 : String),
        entry.needsToken = some nt → nt ≠ "" → jsToLower nt ≠ "false" →
        jsLookup headers "authorization" = some auth →
        jsSplitWs auth = [s0, token] → jsToLower (jsTrim s0) = "bearer" →
        JWTTokenManager.checkSecurity parse now tbl entry headers req reason =
          checkToken parse now tbl token reason (some nt) entry.checkClaims req) := by
  refine ⟨?_, ?_, ?_, ?_, ?_⟩
  · intro h
    cases hla : jsLookup tbl token with
    | none => simp [checkToken, hla] at h
    | some la =>
      by_cases hz : la = 0
      · simp [checkToken, hla, hz] at h
      · cases hc : getClaims parse token with
        | none => simp [checkToken, hla, hz, hc] at h
        | some claims =>
          by_cases he : now - la > claims.expiryInterval
          · simp [checkToken, hla, hz, hc, he] at h
          · exact ⟨la, claims, rfl, hz, rfl, not_lt.mp he⟩
  · intro hla
    simp [checkToken, hla, failReason]
  · intro la claims hla hz hc he
    simp [checkToken, hla, hz, hc, he, failReason, jsStr]
    decide
  · intro hnd
    unfold releaseToken
    by_cases hrel : token ≠ "" ∧ (jsLookup tbl token).getD 0 ≠ 0
    · rw [if_pos hrel]
      have : jsLookup (jsDelete tbl token) token = none := jsLookup_jsDelete_self hnd token
      simp [checkToken, this, failReason]
    · rw [if_neg hrel]
      push_neg at hrel
      by_cases htok : token = ""
      · cases hla : jsLookup tbl token with
        | none => simp [checkToken, hla, failReason]
        | some la =>
          by_cases hz : la = 0
          · simp [checkToken, hla, hz, failReason]
          · have hc : getClaims parse token = none := by
              subst htok; rfl
            simp [checkToken, hla, hz, hc, failReason]
      · have hz := hrel htok
        cases hla : jsLookup tbl token with
        | none => simp [checkToken, hla, failReason]
        | some la =>
          rw [hla] at hz
          simp only [Option.getD_some] at hz
          simp [checkToken, hla, hz, failReason]
  · intro entry nt headers auth s0 hnt hne hlow hauth hsplit hbearer
    simp [JWTTokenManager.checkSecurity, hnt, hne, hlow, hauth, hsplit, hbearer]

/-- A concrete external base64-JSON decoder used by the witnesses: it decodes
the claims segment `CLM` to a claim set with a 1000 ms `expiryInterval` and
subject `user1`, and fails on any other segment. -/
def parseFix : String → Option TMClaims :=
  fun s => if s = "CLM" then
    some { expiryInterval := 1000, fields := [("sub", "user1")] } else none

/-- Witness for C1 at concrete inputs: a token absent from the table is
rejected with code 403, and a token whose age exceeds its `expiryInterval` is
rejected with code 403 and the `expired` reason. -/
theorem claim_C1_witness :
    ((JWTTokenManager.checkToken parseFix 5000 [] "H.CLM.S" {} none none []).1 = false ∧
      (JWTTokenManager.checkToken parseFix 5000 [] "H.CLM.S" {} none none []).2.1.code = some 403)
    ∧ ((JWTTokenManager.checkToken parseFix 5000 [("H.CLM.S", 1)] "H.CLM.S" {} none none []).1 = false ∧
      (JWTTokenManager.checkToken parseFix 5000 [("H.CLM.S", 1)] "H.CLM.S" {} none none []).2.1.code = some 403 ∧
      (JWTTokenManager.checkToken parseFix 5000 [("H.CLM.S", 1)] "H.CLM.S" {} none none []).2.1.reason =
        some "JWT Token Error, expired" ∧
      List.IsInfix "expired".toList
        (jsStr (JWTTokenManager.checkToken parseFix 5000 [("H.CLM.S", 1)] "H.CLM.S" {} none none []).2.1.reason).toList) :=
  ⟨(claim_C1_token_validation parseFix 5000 [] "H.CLM.S" {} none none []).2.1 rfl,
    (claim_C1_token_validation parseFix 5000 [("H.CLM.S", 1)] "H.CLM.S" {} none none []).2.2.1
      1 { expiryInterval := 1000, fields := [("sub", "user1")] }
      rfl (by decide) rfl (by decide)⟩

open JWTTokenManager in
/-- C10: whenever `checkToken` returns `false` — for any rejection cause:
token absent from the live table, unparseable claims, expiry exceeded,
access-level (`sub`) mismatch, or `checkClaims` mismatch — the live-token
table is left unchanged: no entry is added, refreshed or removed, and
`lastAccess` is written only on the success path. -/
theorem claim_C10_failure_leaves_table_unchanged (parse : String → Option TMClaims)
    (now : Int) (tbl : TokenTable) (token : String) (reason : Reason)
    (accessNeeded checkClaims : Option String) (req : List (String × String))
    (h : (checkToken parse now tbl token reason accessNeeded checkClaims req).1 = false) :
    (checkToken parse now tbl token reason accessNeeded checkClaims req).2.2 = tbl := by
  cases hla : jsLookup tbl token with
  | none => simp [checkToken, hla]
  | some la =>
    by_cases hz : la = 0
    · simp [checkToken, hla, hz]
    · cases hc : getClaims parse token with
      | none => simp [checkToken, hla, hz, hc]
      | some claims =>
        by_cases he : now - la > claims.expiryInterval
        · simp [checkToken, hla, hz, hc, he]
        · by_cases ha : accessLevelFails accessNeeded claims
          · simp [checkToken, hla, hz, hc, he, ha]
          · cases hcc : ccStageFailKey checkClaims claims req with
            | some key => simp [checkToken, hla, hz, hc, he, ha, hcc]
            | none => simp [checkToken, hla, hz, hc, he, ha, hcc] at h

/-- Witness for C10 at a concrete input: a rejected token (absent from the
table) leaves the table unchanged. -/
theorem claim_C10_witness :
    (JWTTokenManager.checkToken parseFix 5000 [("OTHER", 7)] "H.CLM.S" {} none none []).2.2 =
      [("OTHER", 7)] :=
  claim_C10_failure_leaves_table_unchanged parseFix 5000 [("OTHER", 7)] "H.CLM.S" {}
    none none [] rfl

/-- A successful plain validation (no access-level list, no `checkClaims`)
refreshes `lastAccess` to the current time: the success path of `checkToken`
under the freshness hypotheses. -/
theorem JWTTokenManager.checkToken_plain_success (parse : String → Option TMClaims)
    {tbl : TokenTable} {token : String} {la : Int} {claims : TMClaims} (now : Int)
    (reason : Reason) (hla : jsLookup tbl token = some la) (hz : la ≠ 0)
    (hc : JWTTokenManager.getClaims parse token = some claims)
    (he : now - la ≤ claims.expiryInterval) :
    JWTTokenManager.checkToken parse now tbl token reason none none [] =
      (true, reason, jsSet tbl token now) := by
  simp [JWTTokenManager.checkToken, hla, hz, hc, not_lt.mpr he,
    JWTTokenManager.accessLevelFails, JWTTokenManager.ccStageFailKey,
    JWTTokenManager.updateLastAccessOrAddToken]

/-- A sequence of validation attempts of one token at the given times,
starting from the given table: each attempt is a plain `checkToken` call
threading the table; the run stops at the first failure. Returns whether all
attempts succeeded, together with the final table. -/
def runAccesses (parse : String → Option TMClaims) (token : String) :
    List Int → TokenTable → Bool × TokenTable
  | [], tbl => (true, tbl)
  | t :: rest, tbl =>
    let r := JWTTokenManager.checkToken parse t tbl token {} none none []
    if r.1 then runAccesses parse token rest r.2.2 else (false, r.2.2)

/-- The access times are truthy timestamps and each gap — from the previous
`lastAccess` to the next access — is at most `expiryInterval`. -/
def gapsOk (expiryInterval : Int) : Int → List Int → Bool
  | _, [] => true
  | la, t :: rest => t ≠ 0 && t - la ≤ expiryInterval && gapsOk expiryInterval t rest

open JWTTokenManager in
/-- C8: every fully successful check of a token sets its `lastAccess` to the
current time (the returned table is exactly `jsSet tbl token now`); hence
repeated valid accesses at gaps each at most `expiryInterval` all succeed and
leave `lastAccess` at the last access time (keeping the token valid
indefinitely), while any single gap exceeding `expiryInterval` makes the
check fail. -/
theorem claim_C8_sliding_expiry (parse : String → Option TMClaims)
    (tbl : TokenTable) (token : String) :
    (∀ (now : Int) (reason : Reason) (accessNeeded checkClaims : Option String)
        (req : List (String × String)),
      (checkToken parse now tbl token reason accessNeeded checkClaims req).1 = true →
      (checkToken parse now tbl token reason accessNeeded checkClaims req).2.2 =
        jsSet tbl token now)
    ∧ (∀ (claims : TMClaims) (la : Int) (times : List Int),
        getClaims parse token = some claims → jsLookup tbl token = some la → la ≠ 0 →
        gapsOk claims.expiryInterval la times = true →
        (runAccesses parse token times tbl).1 = true ∧
        jsLookup (runAccesses parse token times tbl).2 token = some (times.getLastD la))
    ∧ (∀ (claims : TMClaims) (la : Int) (now : Int) (reason : Reason)
          (accessNeeded checkClaims : Option String) (req : List (String × String)),
        getClaims parse token = some claims → jsLookup tbl token = some la →
        now - la > claims.expiryInterval →
        (checkToken parse now tbl token reason accessNeeded checkClaims req).1 = false) := by
  refine ⟨?_, ?_, ?_⟩
  · intro now reason accessNeeded checkClaims req h
    cases hla : jsLookup tbl token with
    | none => simp [checkToken, hla] at h
    | some la =>
      by_cases hz : la = 0
      · simp [checkToken, hla, hz] at h
      · cases hc : getClaims parse token with
        | none => simp [checkToken, hla, hz, hc] at h
        | some claims =>
          by_cases he : now - la > claims.expiryInterval
          · simp [checkToken, hla, hz, hc, he] at h
          · by_cases ha : accessLevelFails accessNeeded claims
            · simp [checkToken, hla, hz, hc, he, ha] at h
            · cases hcc : ccStageFailKey checkClaims claims req with
              | some key => simp [checkToken, hla, hz, hc, he, ha, hcc] at h
              | none =>
                simp [checkToken, hla, hz, hc, he, ha, hcc,
                  updateLastAccessOrAddToken]
  · intro claims la times hc hla hz hg
    induction times generalizing tbl la with
    | nil => exact ⟨rfl, by simpa [runAccesses] using hla⟩
    | cons t rest ih =>
      simp only [gapsOk, Bool.and_eq_true, decide_eq_true_eq] at hg
      obtain ⟨⟨ht0, hgap⟩, hgrest⟩ := hg
      have hstep := checkToken_plain_success parse t
        ({} : Reason) hla hz hc hgap
      have hrec := ih (jsSet tbl token t) t (jsLookup_jsSet_self tbl token t) ht0
        (by simpa [gapsOk] using hgrest)
      simp only [List.getLastD_cons]
      simpa [runAccesses, hstep] using hrec
  · intro claims la now reason accessNeeded checkClaims req hc hla he
    by_cases hz : la = 0
    · simp [checkToken, hla, hz]
    · simp [checkToken, hla, hz, hc, he]

/-- Witness for C8 at concrete inputs: accesses at times 500, 1200 and 2000
to a token last accessed at 100 with a 1000 ms `expiryInterval` all succeed
and leave `lastAccess` at 2000, while a check at time 5000 fails. -/
theorem claim_C8_witness :
    ((runAccesses parseFix "H.CLM.S" [500, 1200, 2000] [("H.CLM.S", 100)]).1 = true ∧
      jsLookup (runAccesses parseFix "H.CLM.S" [500, 1200, 2000] [("H.CLM.S", 100)]).2
        "H.CLM.S" = some 2000)
    ∧ (JWTTokenManager.checkToken parseFix 5000 [("H.CLM.S", 100)] "H.CLM.S" {}
        none none []).1 = false :=
  ⟨(claim_C8_sliding_expiry parseFix [("H.CLM.S", 100)] "H.CLM.S").2.1
      { expiryInterval := 1000, fields := [("sub", "user1")] } 100 [500, 1200, 2000]
      rfl rfl (by decide) (by decide),
    (claim_C8_sliding_expiry parseFix [("H.CLM.S", 100)] "H.CLM.S").2.2
      { expiryInterval := 1000, fields := [("sub", "user1")] } 100 5000 {} none none []
      rfl rfl (by decide)⟩

/-- A chain of `undefined` entries is skipped entirely: the loop guard
`securitycheckerThis && ...` never fails on them. -/
theorem ApiRegistry.runCheckers_all_undefined
    (os : List (Option ApiRegistry.SecurityChecker)) (h : ∀ o ∈ os, o = none)
    (r : Reason) (acc : List String) :
    ApiRegistry.runCheckers os r acc = (true, r, acc.reverse) := by
  induction os with
  | nil => rfl
  | cons o os ih =>
    have ho : o = none := h o (by simp)
    subst ho
    simp only [ApiRegistry.runCheckers]
    exact ih (fun o2 h2 => h o2 (by simp [h2])) 

theorem ApiRegistry.runCheckers_append_undefined
    (xs os : List (Option ApiRegistry.SecurityChecker)) (h : ∀ o ∈ os, o = none)
    (r : Reason) (acc : List String) :
    ApiRegistry.runCheckers (xs ++ os) r acc = ApiRegistry.runCheckers xs r acc := by
  induction xs generalizing r acc with
  | nil =>
    simp only [List.nil_append]
    rw [ApiRegistry.runCheckers_all_undefined os h r acc]
    rfl
  | cons x xs ih =>
    cases x with
    | none =>
      simp only [List.cons_append, ApiRegistry.runCheckers]
      exact ih r acc
    | some c =>
      simp only [List.cons_append, ApiRegistry.runCheckers]
      by_cases hp : (c.check r).1
      · simp only [hp, if_true]
        exact ih (c.check r).2 (c.name :: acc)
      · simp [hp]

/-- When every checker of an all-present chain passes, the loop reaches the
end and records every checker as invoked. -/
theorem ApiRegistry.runCheckers_all_pass (cs : List ApiRegistry.SecurityChecker)
    (h : ∀ c ∈ cs, ∀ r, (c.check r).1 = true) (r : Reason) (acc : List String) :
    ∃ r2, ApiRegistry.runCheckers (cs.map some) r acc =
      (true, r2, acc.reverse ++ cs.map (fun c => c.name)) := by
  induction cs generalizing r acc with
  | nil => exact ⟨r, by simp [ApiRegistry.runCheckers]⟩
  | cons c cs ih =>
    have hp := h c (by simp) r
    obtain ⟨r2, hr2⟩ := ih (fun c2 h2 r2 => h c2 (by simp [h2]) r2) (c.check r).2 (c.name :: acc)
    refine ⟨r2, ?_⟩
    simp only [List.map_cons, ApiRegistry.runCheckers, hp, if_true, hr2]
    simp

/-- When every checker before `c` passes and `c` rejects (whatever the reason
state), the loop stops at `c`: the result is `false`, exactly the checkers up
to and including `c` were invoked, and the module name of `c` is appended to
`reason.reason`. -/
theorem ApiRegistry.runCheckers_first_fail (pre : List ApiRegistry.SecurityChecker)
    (c : ApiRegistry.SecurityChecker) (post : List ApiRegistry.SecurityChecker)
    (hpre : ∀ c2 ∈ pre, ∀ r, (c2.check r).1 = true)
    (hc : ∀ r, (c.check r).1 = false) (r : Reason) (acc : List String) :
    ∃ s r2, ApiRegistry.runCheckers ((pre ++ c :: post).map some) r acc =
      (false, r2, acc.reverse ++ (pre.map (fun x => x.name) ++ [c.name])) ∧
      r2.reason = some (s ++ " ---- Failed on: " ++ c.name) := by
  induction pre generalizing r acc with
  | nil =>
    refine ⟨jsStr (c.check r).2.reason,
      { (c.check r).2 with
          reason := some (jsStr (c.check r).2.reason ++ " ---- Failed on: " ++ c.name) },
      ?_, rfl⟩
    simp [ApiRegistry.runCheckers, hc r]
  | cons p pre ih =>
    have hp := hpre p (by simp) r
    obtain ⟨s, r2, h1, h2⟩ := ih (fun c2 hm r3 => hpre c2 (by simp [hm]) r3) (p.check r).2 (p.name :: acc)
    refine ⟨s, r2, ?_, h2⟩
    have hmap : List.map some ((p :: pre) ++ c :: post) =
        some p :: List.map some (pre ++ c :: post) := by simp
    rw [hmap]
    simp only [ApiRegistry.runCheckers, hp, if_true]
    rw [h1]
    simp

/-- If the loop over an all-present chain returns `true`, every checker of
the chain was invoked (none was skipped or cut off). -/
theorem ApiRegistry.runCheckers_true_trace (cs : List ApiRegistry.SecurityChecker)
    (r : Reason) (acc : List String)
    (h : (ApiRegistry.runCheckers (cs.map some) r acc).1 = true) :
    (ApiRegistry.runCheckers (cs.map some) r acc).2.2 =
      acc.reverse ++ cs.map (fun c => c.name) := by
  induction cs generalizing r acc with
  | nil => simp [ApiRegistry.runCheckers]
  | cons c cs ih =>
    simp only [List.map_cons, ApiRegistry.runCheckers] at h ⊢
    by_cases hp : (c.check r).1
    · simp only [hp, if_true] at h ⊢
      rw [ih (c.check r).2 (c.name :: acc) h]
      simp
    · simp [hp] at h

/-- C3 is refuted on the code as the claim states it: with an endpoint whose
`customSecurity` directive names an unregistered checker and an otherwise
empty chain, `checkSecurity` returns `true` — the `undefined` chain entry is
skipped by the `securitycheckerThis && ...` guard, not treated as a failed
check. -/
theorem claim_C3_counterexample :
    (ApiRegistry.checkSecurity [("/api/x", { customSecurity := some "missing" })]
      [] [] "/api/x" {}).1 = true := rfl

open ApiRegistry in
/-- C3 (amended): a registry entry whose `customSecurity` directive references
only unregistered checker names does not crash and is not failed closed: the
`undefined` chain entries are skipped, and `checkSecurity` behaves exactly as
the core-checker chain alone would (fail-open). -/
theorem claim_C3_missing_checker_skipped (apireg : Registry)
    (core : List SecurityChecker) (custom : List (String × SecurityChecker))
    (endPoint : String) (entry : ApiRegEntry) (reason : Reason) (cs : String)
    (he : jsLookup apireg endPoint = some entry)
    (hcs : entry.customSecurity = some cs) (hne : cs ≠ "")
    (hmissing : ∀ n ∈ escapedSplit cs, jsLookup custom n = none) :
    ApiRegistry.checkSecurity apireg core custom endPoint reason =
      ApiRegistry.runCheckers (core.map some) reason [] := by
  simp only [ApiRegistry.checkSecurity, he, ApiRegistry.fullChain, hcs, if_neg hne]
  refine runCheckers_append_undefined _ _ ?_ reason []
  intro o ho
  obtain ⟨n, hn, rfl⟩ := List.mem_map.mp ho
  exact hmissing n hn

/-- Witness for C3 (amended) at a concrete input. -/
theorem claim_C3_witness :
    ApiRegistry.checkSecurity [("/api/x", { customSecurity := some "missing" })]
      [] [] "/api/x" {} = ApiRegistry.runCheckers [] {} [] :=
  claim_C3_missing_checker_skipped
    [("/api/x", { customSecurity := some "missing" })] [] [] "/api/x"
    { customSecurity := some "missing" } {} "missing" rfl rfl (by decide)
    (fun n _ => rfl)

open ApiRegistry in
/-- C4: on a URL whose path component has no registry entry,
`decodeIncomingData` and `encodeResponse` return `false` (modelled `none`)
and `injectResponseHeaders` performs no header mutation; `checkSecurity`
returns `false`, but — contrary to the claim — the caller-visible `reasonOut`
object comes back exactly as it was passed in: the source rebinds its local
`reason` parameter to a fresh object instead of mutating the object of the
caller, so `reason:"API endpoint missing", code:403` never reaches the
caller. -/
theorem claim_C4_unregistered_endpoint {α : Type u} (apireg : Registry)
    (endPoint : String) (h : jsLookup apireg endPoint = none)
    (decoders encoders : List (α → α)) (data respObj : α)
    (headermanagers : List (List (String × String) → List (String × String)))
    (responseHeaders : List (String × String)) (core : List SecurityChecker)
    (custom : List (String × SecurityChecker)) (reason : Reason) :
    decodeIncomingData apireg decoders endPoint data = none ∧
    encodeResponse apireg encoders endPoint respObj = none ∧
    injectResponseHeaders apireg headermanagers endPoint responseHeaders = responseHeaders ∧
    ApiRegistry.checkSecurity apireg core custom endPoint reason = (false, reason, []) := by
  simp [decodeIncomingData, encodeResponse, injectResponseHeaders,
    ApiRegistry.checkSecurity, h]

/-- Witness for C4 at a concrete unregistered path, with an initially empty
`reasonOut` that comes back still empty. -/
theorem claim_C4_witness :
    ApiRegistry.decodeIncomingData ([] : ApiRegistry.Registry)
      ([] : List (String → String)) "/missing" "payload" = none ∧
    ApiRegistry.encodeResponse ([] : ApiRegistry.Registry)
      ([] : List (String → String)) "/missing" "resp" = none ∧
    ApiRegistry.injectResponseHeaders [] [] "/missing" [("h", "v")] = [("h", "v")] ∧
    ApiRegistry.checkSecurity [] [] [] "/missing" {} = (false, {}, []) :=
  claim_C4_unregistered_endpoint [] "/missing" rfl [] [] "payload" "resp"
    [] [("h", "v")] [] [] {}

open ApiRegistry in
/-- C5: on a registered endpoint whose assembled chain (core checkers plus
any `customSecurity`-named checkers) consists of the given present checkers
in order, `checkSecurity` invokes the checkers in order; it returns `false`
on the first rejecting checker with the module name of that checker appended
to `reasonOut.reason` and invokes no checker after it; and it returns `true`
only when every checker of the full chain was invoked and passed. -/
theorem claim_C5_chain_short_circuit (apireg : Registry)
    (core : List SecurityChecker) (custom : List (String × SecurityChecker))
    (endPoint : String) (entry : ApiRegEntry) (reason : Reason)
    (cs : List SecurityChecker) (he : jsLookup apireg endPoint = some entry)
    (hchain : fullChain core custom entry = cs.map some) :
    ((∀ c ∈ cs, ∀ r, (c.check r).1 = true) →
      (ApiRegistry.checkSecurity apireg core custom endPoint reason).1 = true ∧
      (ApiRegistry.checkSecurity apireg core custom endPoint reason).2.2 =
        cs.map (fun c => c.name))
    ∧ (∀ pre c post, cs = pre ++ c :: post →
        (∀ c2 ∈ pre, ∀ r, (c2.check r).1 = true) →
        (∀ r, (c.check r).1 = false) →
        (ApiRegistry.checkSecurity apireg core custom endPoint reason).1 = false ∧
        (ApiRegistry.checkSecurity apireg core custom endPoint reason).2.2 =
          pre.map (fun x => x.name) ++ [c.name] ∧
        ∃ s, (ApiRegistry.checkSecurity apireg core custom endPoint reason).2.1.reason =
          some (s ++ " ---- Failed on: " ++ c.name))
    ∧ ((ApiRegistry.checkSecurity apireg core custom endPoint reason).1 = true →
        (ApiRegistry.checkSecurity apireg core custom endPoint reason).2.2 =
          cs.map (fun c => c.name)) := by
  have hcsdef : ApiRegistry.checkSecurity apireg core custom endPoint reason =
      runCheckers (cs.map some) reason [] := by
    simp [ApiRegistry.checkSecurity, he, hchain]
  refine ⟨?_, ?_, ?_⟩
  · intro hall
    obtain ⟨r2, hr2⟩ := runCheckers_all_pass cs hall reason []
    rw [hcsdef, hr2]
    simp
  · intro pre c post hsplit hpre hcfail
    subst hsplit
    obtain ⟨s, r2, h1, h2⟩ := runCheckers_first_fail pre c post hpre hcfail reason []
    rw [hcsdef, h1]
    exact ⟨rfl, by simp, ⟨s, h2⟩⟩
  · intro h
    rw [hcsdef] at h ⊢
    simpa using runCheckers_true_trace cs reason [] h

/-- A security checker that always passes, leaving the reason untouched. -/
def checkerPass (nm : String) : ApiRegistry.SecurityChecker :=
  { name := nm, check := fun r => (true, r) }

/-- A security checker that always rejects, leaving the reason untouched. -/
def checkerFail (nm : String) : ApiRegistry.SecurityChecker :=
  { name := nm, check := fun r => (false, r) }

/-- Witness for C5 at a concrete chain `[a (pass), b (fail), c (pass)]`:
`checkSecurity` returns `false` and only `a` and `b` were invoked. -/
theorem claim_C5_witness :
    (ApiRegistry.checkSecurity [("/api/x", {})]
      [checkerPass "a.js", checkerFail "b.js", checkerPass "c.js"] [] "/api/x" {}).1 = false ∧
    (ApiRegistry.checkSecurity [("/api/x", {})]
      [checkerPass "a.js", checkerFail "b.js", checkerPass "c.js"] [] "/api/x" {}).2.2 =
      ["a.js", "b.js"] := by
  have T := claim_C5_chain_short_circuit [("/api/x", {})]
    [checkerPass "a.js", checkerFail "b.js", checkerPass "c.js"] [] "/api/x" {} {}
    [checkerPass "a.js", checkerFail "b.js", checkerPass "c.js"] rfl rfl
  have hpre : ∀ c2 ∈ [checkerPass "a.js"], ∀ r, (c2.check r).1 = true := by
    intro c2 hc2 r
    rw [List.mem_singleton] at hc2
    subst hc2
    rfl
  have hres := T.2.1 [checkerPass "a.js"] (checkerFail "b.js") [checkerPass "c.js"]
    rfl hpre (fun _ => rfl)
  exact ⟨hres.1, by rw [hres.2.1]; rfl⟩

/-- C6 fails on the code: in `addAPI(path, apiregentry, app)` and
`deleteAPI(path, app)` the parameter `app` — the application name string —
shadows the module-level import of `app.js`, so the very first
`app.getApps()` call throws a `TypeError` for every string argument, before
the live table or the on-disk registry file is touched; the operations can
never complete, and `getAPI`/`listAPIs` keep observing the unchanged table
(shown here on a concrete registry). -/
theorem claim_C6_add_delete_throw :
    ApiRegistry.addAPI [("/api/a", { rawpathname := "t.js" })] "/api/p" "entry.js" "app1" =
      Except.error "TypeError: app.getApps is not a function" ∧
    ApiRegistry.deleteAPI [("/api/a", { rawpathname := "t.js" })] "/api/a" "app1" =
      Except.error "TypeError: app.getApps is not a function" ∧
    ApiRegistry.getAPI [("/api/a", { rawpathname := "t.js" })] "/api/a" = some "t.js" ∧
    ApiRegistry.listAPIs [("/api/a", { rawpathname := "t.js" })] = ["/api/a"] :=
  ⟨rfl, rfl, rfl, rfl⟩

/-- C9 fails on the code in one respect: the sweep does evict every token
whose age exceeds its own `expiryInterval`, tolerates unparseable claims by
skipping those tokens, notifies every registered listener exactly once per
evicted token, and returns the pruned table for the write-back — but the
event string it fires is the literal `"token_expireed"`, not the specified
`"token_expired"`. Evaluated at a table holding one over-age token and one
token with unparseable claims, with one registered listener. -/
theorem claim_C9_gc_sweep :
    JWTTokenManager._cleanTokens parseFix 5000 [0] [("junk", 1), ("H.CLM.S", 1)] =
      ([("junk", 1)], [(0, "token_expireed", "H.CLM.S")]) := rfl

/-- C2 is refuted in the order of the HMAC input: instantiating the external
HMAC with a function that returns its message shows that the source signs
`claims.header` — the claims segment followed by the header segment — not
`header.claims` as the claim states. -/
theorem claim_C2_counterexample :
    (JWTTokenManager.createSignedJWTToken (fun _ => "CLAIMSB64") (fun _ msg => msg)
        "key" "jti" 0 1000 {} []).1 ≠
      JWTTokenManager.createSignedJWTTokenHeaderFirst (fun _ => "CLAIMSB64")
        (fun _ msg => msg) "key" "jti" 0 1000 {} := by decide

open JWTTokenManager in
/-- C2 (amended): for every properties input, `createSignedJWTToken` returns
a three-part token `header.claims.signature` where `header` is the fixed
constant segment, `claims` is the base64-of-JSON-encoded claim set, and
`signature` is the HMAC-SHA256 — under the fresh random key drawn for that
single call — of `claims.header`: the claims segment followed by the header
segment, dot-separated. The new token is registered in the live table at the
current time. -/
theorem claim_C2_token_structure (jsonB64 : TMClaims → String)
    (hmacSHA256 : String → String → String) (randomKeyHex jtiHex : String)
    (timenow : Int) (confExpiry : Int) (props : JwtProps) (tbl : TokenTable) :
    (createSignedJWTToken jsonB64 hmacSHA256 randomKeyHex jtiHex timenow confExpiry props tbl).1 =
      BASE_64_HEADER ++ "." ++ jsonB64 (buildClaims timenow jtiHex confExpiry props) ++ "." ++
        hmacSHA256 randomKeyHex
          (jsonB64 (buildClaims timenow jtiHex confExpiry props) ++ "." ++ BASE_64_HEADER) ∧
    (createSignedJWTToken jsonB64 hmacSHA256 randomKeyHex jtiHex timenow confExpiry props tbl).2 =
      jsSet tbl
        (createSignedJWTToken jsonB64 hmacSHA256 randomKeyHex jtiHex timenow confExpiry
          props tbl).1 timenow :=
  ⟨rfl, rfl⟩

open ApiRegistry in
/-- C7: for every pipeline kind, the chain loaded by `_loadSortedConfOjbects`
from the core configuration followed by the application configurations is
sorted ascending by numeric priority, and entries of equal priority keep
their relative discovery order — formalised as: for every priority, the
subsequence of entries with that priority equals the filter of the flat
discovery-ordered input (core entries first, applications in catalog
order). -/
theorem claim_C7_extension_ordering
    (pathAndRoots : List (String × List (String × Int))) :
    List.Pairwise (fun a b => a.priority ≤ b.priority)
      (_loadSortedConfOjbects pathAndRoots)
    ∧ ∀ k : Int,
      (_loadSortedConfOjbects pathAndRoots).filter (fun e => e.priority == k) =
        ((pathAndRoots.map (fun pr => confEntriesOf pr.1 pr.2)).flatten).filter
          (fun e => e.priority == k) := by
  have hdef : _loadSortedConfOjbects pathAndRoots =
      ((pathAndRoots.map (fun pr => confEntriesOf pr.1 pr.2)).flatten).mergeSort
        (fun a b => decide (a.priority ≤ b.priority)) := rfl
  have htrans : ∀ a b c : ConfEntry, decide (a.priority ≤ b.priority) = true →
      decide (b.priority ≤ c.priority) = true →
      decide (a.priority ≤ c.priority) = true := by
    intro a b c hab hbc
    simp only [decide_eq_true_eq] at hab hbc ⊢
    exact le_trans hab hbc
  have htotal : ∀ a b : ConfEntry,
      (decide (a.priority ≤ b.priority) || decide (b.priority ≤ a.priority)) = true := by
    intro a b
    simp only [Bool.or_eq_true, decide_eq_true_eq]
    exact le_total _ _
  constructor
  · rw [hdef]
    exact (List.sorted_mergeSort htrans htotal _).imp (fun h => of_decide_eq_true h)
  · intro k
    rw [hdef]
    have hcall : ∀ a ∈ ((pathAndRoots.map (fun pr => confEntriesOf pr.1 pr.2)).flatten).filter
        (fun e => e.priority == k), (fun (e : ConfEntry) => e.priority == k) a = true :=
      fun a ha => (List.mem_filter.mp ha).2
    have hcsorted : List.Pairwise (fun a b => decide (a.priority ≤ b.priority) = true)
        (((pathAndRoots.map (fun pr => confEntriesOf pr.1 pr.2)).flatten).filter
          (fun e => e.priority == k)) := by
      refine List.pairwise_of_forall_mem_list ?_
      intro a ha b hb
      have hak : a.priority = k := by simpa using (List.mem_filter.mp ha).2
      have hbk : b.priority = k := by simpa using (List.mem_filter.mp hb).2
      simp [hak, hbk]
    have hsub := List.sublist_mergeSort htrans htotal hcsorted
      (List.filter_sublist ((pathAndRoots.map (fun pr => confEntriesOf pr.1 pr.2)).flatten))
    have hsub2 := hsub.filter (fun (e : ConfEntry) => e.priority == k)
    rw [List.filter_eq_self.mpr hcall] at hsub2
    have hperm := (List.mergeSort_perm
      ((pathAndRoots.map (fun pr => confEntriesOf pr.1 pr.2)).flatten)
      (fun a b => decide (a.priority ≤ b.priority))).filter
      (fun (e : ConfEntry) => e.priority == k)
    exact (hsub2.eq_of_length hperm.length_eq.symm).symm
